import Mathlib

/-!
Verification of the astra provenance and checkpointed-persistence layer.

The development shallowly embeds the core operations of the repository:
the parameter store and task-instance registry (astra/database/utils.py),
the output linker (create_task_output), primary-key serialization
(deserialize_pks, serialize_pks_to_path), and the checkpointed task
runner (the task decorator and _bulk_insert in astra/__init__.py).

Database tables are lists of row structures; the SQLAlchemy session is
threaded explicitly as a state value; Python exceptions are an explicit
error type carried in Except.
-/

/-- Python-level exceptions that the embedded operations can raise. -/
inductive PyErr where
  | valueError
  | typeError
  | nameError
  | keyError
  | multipleResultsFound
  | integrityError
  | recursionError
  | unmappedInstanceError
  | assertionError
deriving DecidableEq, Repr

/-- Semantics of the SQLAlchemy one_or_none query terminator: zero rows gives
none, one row gives that row, and two or more rows raise MultipleResultsFound. -/
def oneOrNone {α : Type} : List α → Except PyErr (Option α)
  | [] => .ok none
  | [x] => .ok (some x)
  | _ :: _ :: _ => .error .multipleResultsFound

/-- Parameter values supplied by callers: either a string (which the source
passes through serialization unchanged) or an integer (which json.dumps
renders in decimal). -/
inductive PValue where
  | s (v : String)
  | i (n : Int)
deriving DecidableEq, Repr

/-- Embedding of serialize from astra/database/utils.py: strings pass through,
other values are rendered by json.dumps (decimal text for integers). -/
def serialize : PValue → String
  | .s v => v
  | .i n => toString n

/-- Row of the parameter table: content-addressed (name, serialized value). -/
structure ParamRow where
  pk : Nat
  parameter_name : String
  parameter_value : String
deriving DecidableEq, Repr

/-- Row of the task_instance table. -/
structure TaskInstanceRow where
  pk : Nat
  dag_id : String
  task_id : String
  run_id : String
  output_pk : Option Nat
deriving DecidableEq, Repr

/-- Row of the task_instance_parameter join table. -/
structure TaskInstanceParameterRow where
  ti_pk : Nat
  parameter_pk : Nat
deriving DecidableEq, Repr

/-- Row of a concrete output table: the task instance it belongs to, the
output_interface pk stamped on it, and the task-specific fields. -/
structure OutputRow where
  ti_pk : Nat
  output_pk : Nat
  fields : List (String × String)
deriving DecidableEq, Repr

/-- State of the relational store: one list per table, plus the next value of
each primary-key sequence. -/
structure DB where
  parameters : List ParamRow
  task_instances : List TaskInstanceRow
  ti_parameters : List TaskInstanceParameterRow
  output_interfaces : List Nat
  output_records : List OutputRow
  next_parameter_pk : Nat
  next_ti_pk : Nat
  next_output_pk : Nat
deriving DecidableEq, Repr

def DB.empty : DB := ⟨[], [], [], [], [], 0, 0, 0⟩

/-- Embedding of get_or_create_parameter_pk from astra/database/utils.py.
The interf argument models a concurrent writer that commits a row for the
given name/value pair between this call's initial query and its insert
attempt; none means no interference.  The insert enforces the content-address
uniqueness of the parameter table, raising IntegrityError on a duplicate
(name, value) pair; the except branch then re-queries and returns the
winner's pk, re-raising only if even the re-query finds nothing.  As in the
source, the created flag stays true on the recovery path. -/
def get_or_create_parameter_pk (db : DB) (interf : Option (String × PValue))
    (name : String) (value : PValue) : Except PyErr (DB × Nat × Bool) :=
  let sval := serialize value
  let q0 := db.parameters.filter fun p =>
    decide (p.parameter_name = name ∧ p.parameter_value = sval)
  let db1 := match interf with
    | none => db
    | some (n2, v2) =>
      { db with
          parameters := db.parameters ++ [⟨db.next_parameter_pk, n2, serialize v2⟩],
          next_parameter_pk := db.next_parameter_pk + 1 }
  match oneOrNone q0 with
  | .error e => .error e
  | .ok (some p) => .ok (db1, p.pk, false)
  | .ok none =>
    if db1.parameters.any (fun p =>
        decide (p.parameter_name = name ∧ p.parameter_value = sval)) then
      match oneOrNone (db1.parameters.filter fun p =>
          decide (p.parameter_name = name ∧ p.parameter_value = sval)) with
      | .error e => .error e
      | .ok (some p) => .ok (db1, p.pk, true)
      | .ok none => .error .integrityError
    else
      let row : ParamRow := ⟨db1.next_parameter_pk, name, sval⟩
      .ok ({ db1 with
               parameters := db1.parameters ++ [row],
               next_parameter_pk := db1.next_parameter_pk + 1 },
           row.pk, true)

/-- Resolution and linking of the parameter generator inside
create_task_instance: each pair is resolved through
get_or_create_parameter_pk and a join row is added for it. -/
def linkParams : DB → Nat → List (String × PValue) → Except PyErr DB
  | db, _, [] => .ok db
  | db, tiPk, (k, v) :: rest =>
    match get_or_create_parameter_pk db none k v with
    | .error e => .error e
    | .ok (db1, ppk, _) =>
      linkParams
        { db1 with ti_parameters := db1.ti_parameters ++ [⟨tiPk, ppk⟩] }
        tiPk rest

/-- Embedding of create_task_instance from astra/database/utils.py: the task
instance row is inserted first; the parameter rows are then resolved lazily
inside the link transaction and a join row is added for each. -/
def create_task_instance (db : DB) (dag_id task_id run_id : String)
    (parameters : List (String × PValue)) :
    Except PyErr (DB × TaskInstanceRow) :=
  let ti : TaskInstanceRow := ⟨db.next_ti_pk, dag_id, task_id, run_id, none⟩
  let db1 := { db with
                 task_instances := db.task_instances ++ [ti],
                 next_ti_pk := db.next_ti_pk + 1 }
  match linkParams db1 ti.pk parameters with
  | .error e => .error e
  | .ok db2 => .ok (db2, ti)

/-- Embedding of get_or_create_task_instance from astra/database/utils.py.
In the source the lookup call is commented out and replaced by
instance = None, so the function unconditionally creates a new task
instance. -/
def get_or_create_task_instance (db : DB) (dag_id task_id run_id : String)
    (parameters : List (String × PValue)) :
    Except PyErr (DB × TaskInstanceRow) :=
  let inst : Option TaskInstanceRow := none
  match inst with
  | none => create_task_instance db dag_id task_id run_id parameters
  | some ti => .ok (db, ti)

/-- Claim C1: the registry's get-or-create is claimed to return the same
TaskInstance for two calls with an identical parameter set.  On the code as
written the lookup is disabled (instance = None), so two identical calls on
the spec's own scenario (dag ingest, task classify, run r1, parameters
release=sdss5 and mjd=59000) create two distinct TaskInstances with distinct
primary keys. -/
theorem c1_identical_calls_create_distinct_instances :
    ∃ db1 ti1 db2 ti2,
      get_or_create_task_instance DB.empty "ingest" "classify" "r1"
          [("release", .s "sdss5"), ("mjd", .i 59000)] = .ok (db1, ti1) ∧
      get_or_create_task_instance db1 "ingest" "classify" "r1"
          [("release", .s "sdss5"), ("mjd", .i 59000)] = .ok (db2, ti2) ∧
      ti1.pk ≠ ti2.pk := by
  refine ⟨⟨[⟨0, "release", "sdss5"⟩, ⟨1, "mjd", "59000"⟩],
           [⟨0, "ingest", "classify", "r1", none⟩],
           [⟨0, 0⟩, ⟨0, 1⟩], [], [], 2, 1, 0⟩,
         ⟨0, "ingest", "classify", "r1", none⟩,
         ⟨[⟨0, "release", "sdss5"⟩, ⟨1, "mjd", "59000"⟩],
           [⟨0, "ingest", "classify", "r1", none⟩,
            ⟨1, "ingest", "classify", "r1", none⟩],
           [⟨0, 0⟩, ⟨0, 1⟩, ⟨1, 0⟩, ⟨1, 1⟩], [], [], 2, 2, 0⟩,
         ⟨1, "ingest", "classify", "r1", none⟩, rfl, rfl, by decide⟩

/-- Observable actions of the checkpointed task runner: a flush hands the
whole pending batch to _bulk_insert, an emit yields one record to the
caller. -/
inductive Event (α : Type) where
  | flush (batch : List α)
  | emit (r : α)
deriving DecidableEq, Repr

/-- Outcome of one pull from the underlying computation: a produced record,
or an exception raised mid-pull. -/
inductive Pull (α : Type) where
  | ok (r : α)
  | err
deriving DecidableEq, Repr

def prefixEvents {α : Type} (pre : List (Event α)) :
    Except (List (Event α)) (List (Event α)) →
    Except (List (Event α)) (List (Event α))
  | .ok evs => .ok (pre ++ evs)
  | .error evs => .error (pre ++ evs)

/-- Embedding of the loop of the task decorator in astra/__init__.py.
The computation is the list of pull outcomes; sched is the wall-clock
checkpoint condition of the Timer (astra.utils, not in the sources here),
modelled from the spec as an arbitrary boolean consulted once per successful
pull; pending is the in-memory results batch.  A true checkpoint hands the
pending batch to _bulk_insert and only then yields the batch to the caller;
a mid-pull exception propagates when reRaise is set and is logged and
swallowed otherwise; at exhaustion the remaining batch is flushed and
yielded.  An Except.error result is the runner re-raising to its caller,
carrying the events that happened before the raise. -/
def runTaskAux {α : Type} :
    List (Pull α) → List Bool → Bool → List α →
    Except (List (Event α)) (List (Event α))
  | [], _, _, pending => .ok (.flush pending :: pending.map .emit)
  | .ok r :: rest, sched, reRaise, pending =>
    let pending2 := pending ++ [r]
    if sched.headD false then
      prefixEvents (.flush pending2 :: pending2.map .emit)
        (runTaskAux rest sched.tail reRaise [])
    else
      runTaskAux rest sched.tail reRaise pending2
  | .err :: rest, sched, reRaise, pending =>
    if reRaise then .error [] else runTaskAux rest sched reRaise pending

/-- Run of one task invocation, starting from an empty pending batch. -/
def runTask {α : Type} (pulls : List (Pull α)) (sched : List Bool)
    (reRaise : Bool) : Except (List (Event α)) (List (Event α)) :=
  runTaskAux pulls sched reRaise []

/-- Records handed to _bulk_insert across all flush calls, in order. -/
def flushedRecords {α : Type} (evs : List (Event α)) : List α :=
  evs.flatMap fun e => match e with | .flush b => b | .emit _ => []

/-- Records yielded to the caller, in order. -/
def emittedRecords {α : Type} (evs : List (Event α)) : List α :=
  evs.flatMap fun e => match e with | .flush _ => [] | .emit r => [r]

/-- Batches the runner would form: the pending batch is cut at every true
checkpoint and the remainder forms the final drain batch. -/
def runBatches {α : Type} : List α → List Bool → List α → List (List α)
  | [], _, pending => [pending]
  | r :: rest, sched, pending =>
    let pending2 := pending ++ [r]
    if sched.headD false then pending2 :: runBatches rest sched.tail []
    else runBatches rest sched.tail pending2

/-- Event segment of one batch: its flush followed by its emissions. -/
def segOf {α : Type} (b : List α) : List (Event α) :=
  .flush b :: b.map .emit

theorem runTaskAux_ok_eq {α : Type} (recs : List α) :
    ∀ (sched : List Bool) (reRaise : Bool) (pending : List α),
      runTaskAux (recs.map .ok) sched reRaise pending =
        .ok ((runBatches recs sched pending).flatMap segOf) := by
  induction recs with
  | nil =>
    intro sched reRaise pending
    simp [runTaskAux, runBatches, segOf]
  | cons r rest ih =>
    intro sched reRaise pending
    simp only [List.map_cons, runTaskAux, runBatches]
    by_cases h : sched.headD false
    · simp only [h, if_true, ih, prefixEvents]
      simp [segOf]
    · simp only [h, if_false, ih]
      simp

theorem runBatches_flatten {α : Type} (recs : List α) :
    ∀ (sched : List Bool) (pending : List α),
      (runBatches recs sched pending).flatten = pending ++ recs := by
  induction recs with
  | nil => intro sched pending; simp [runBatches]
  | cons r rest ih =>
    intro sched pending
    simp only [runBatches]
    by_cases h : sched.head?.getD false = true
    · simp [h, ih]
    · simp [h, ih]

theorem emittedRecords_append {α : Type} (a b : List (Event α)) :
    emittedRecords (a ++ b) = emittedRecords a ++ emittedRecords b := by
  simp [emittedRecords]

theorem flushedRecords_append {α : Type} (a b : List (Event α)) :
    flushedRecords (a ++ b) = flushedRecords a ++ flushedRecords b := by
  simp [flushedRecords]

theorem emittedRecords_segOf {α : Type} (b : List α) :
    emittedRecords (segOf b) = b := by
  induction b with
  | nil => rfl
  | cons x xs ih =>
    simp only [segOf, emittedRecords, List.flatMap_cons] at ih ⊢
    simpa using ih

theorem flushedRecords_segOf {α : Type} (b : List α) :
    flushedRecords (segOf b) = b := by
  simp [segOf, flushedRecords]

theorem emittedRecords_flatMap_segOf {α : Type} (cs : List (List α)) :
    emittedRecords (cs.flatMap segOf) = cs.flatten := by
  induction cs with
  | nil => rfl
  | cons c cs ih =>
    simp only [List.flatMap_cons, emittedRecords_append, ih,
      emittedRecords_segOf, List.flatten_cons]

theorem flushedRecords_flatMap_segOf {α : Type} (cs : List (List α)) :
    flushedRecords (cs.flatMap segOf) = cs.flatten := by
  induction cs with
  | nil => rfl
  | cons c cs ih =>
    simp only [List.flatMap_cons, flushedRecords_append, ih,
      flushedRecords_segOf, List.flatten_cons]

/-- Traces in which every emitted record was first handed to a flush: any
decomposition around an emit shows a previous flush whose batch contains
the record. -/
def EmitAfterFlush {α : Type} (t : List (Event α)) : Prop :=
  ∀ pre (r : α) post, t = pre ++ .emit r :: post →
    ∃ b, Event.flush b ∈ pre ∧ r ∈ b

theorem emitAfterFlush_nil {α : Type} : EmitAfterFlush ([] : List (Event α)) := by
  intro pre r post h
  exact absurd h (by simp)

theorem emitAfterFlush_seg {α : Type} (b : List α) (t : List (Event α))
    (ht : EmitAfterFlush t) : EmitAfterFlush (segOf b ++ t) := by
  intro pre r post h
  simp only [segOf, List.cons_append] at h
  match pre, h with
  | [], h => simp at h
  | p :: pre', h =>
    injection h with hp htail
    rcases List.append_eq_append_iff.mp htail with ⟨e, he1, he2⟩ | ⟨e, he1, he2⟩
    · -- the emit lies inside t
      rcases ht e r post he2 with ⟨b', hb1, hb2⟩
      refine ⟨b', ?_, hb2⟩
      rw [he1]
      exact List.mem_cons_of_mem _ (List.mem_append_right _ hb1)
    · -- the emit lies inside the emissions of batch b itself
      cases e with
      | nil =>
        -- then t itself starts with an emit, impossible for EmitAfterFlush t
        simp only [List.nil_append] at he2
        rcases ht [] r post (by simpa using he2.symm) with ⟨b', hb1, _⟩
        simp at hb1
      | cons x e' =>
        injection he2 with hx2 _
        have hx : x ∈ b.map Event.emit := by
          rw [he1]; exact List.mem_append_right _ (List.mem_cons_self x e')
        rw [← hx2] at hx
        rcases List.mem_map.mp hx with ⟨y, hy1, hy2⟩
        cases hy2
        refine ⟨b, ?_, hy1⟩
        rw [← hp]
        exact List.mem_cons_self _ _

theorem emitAfterFlush_flatMap_segOf {α : Type} (cs : List (List α)) :
    EmitAfterFlush (cs.flatMap segOf) := by
  induction cs with
  | nil => exact emitAfterFlush_nil
  | cons c cs ih => exact emitAfterFlush_seg c _ ih

theorem runBatches_ne_nil {α : Type} (recs : List α) :
    ∀ sched pending, runBatches recs sched pending ≠ [] := by
  induction recs with
  | nil => intro sched pending; simp [runBatches]
  | cons r rest ih =>
    intro sched pending
    simp only [runBatches]
    by_cases h : sched.head?.getD false = true
    · simp [h]
    · simp [h, ih]

/-- Claim C2: running a computation that yields exactly the records recs
(with any checkpoint schedule) succeeds and produces a trace in which the
records yielded to the caller are exactly recs, the records handed to
_bulk_insert across all flushes are exactly recs, every record is yielded
only after a flush containing it has completed, and the trace ends with the
flush of the remaining pending batch followed by its emission. -/
theorem c2_checkpoint_boundary {α : Type} (recs : List α) (sched : List Bool) :
    ∃ evs, runTask (recs.map .ok) sched true = .ok evs ∧
      emittedRecords evs = recs ∧
      flushedRecords evs = recs ∧
      EmitAfterFlush evs ∧
      ∃ pre b, evs = pre ++ (Event.flush b :: b.map .emit) := by
  refine ⟨(runBatches recs sched []).flatMap segOf,
    runTaskAux_ok_eq recs sched true [], ?_, ?_, ?_, ?_⟩
  · rw [emittedRecords_flatMap_segOf, runBatches_flatten]; rfl
  · rw [flushedRecords_flatMap_segOf, runBatches_flatten]; rfl
  · exact emitAfterFlush_flatMap_segOf _
  · rcases List.eq_nil_or_concat (runBatches recs sched []) with h | ⟨cs, b, h⟩
    · exact absurd h (runBatches_ne_nil recs sched [])
    · exact ⟨cs.flatMap segOf, b, by simp [h, segOf]⟩

/-- Witness for C2 at a concrete computation and schedule. -/
theorem c2_checkpoint_boundary_witness :
    ∃ evs, runTask ([10, 20, 30].map .ok) [false, true, false] true = .ok evs ∧
      emittedRecords evs = [10, 20, 30] ∧
      flushedRecords evs = [10, 20, 30] ∧
      EmitAfterFlush evs ∧
      ∃ pre b, evs = pre ++ (Event.flush b :: b.map .emit) :=
  c2_checkpoint_boundary [10, 20, 30] [false, true, false]

/-- Records produced by the successful pulls of a computation, in order. -/
def okRecords {α : Type} (pulls : List (Pull α)) : List α :=
  pulls.filterMap fun p => match p with | .ok r => some r | .err => none

theorem okRecords_append {α : Type} (a b : List (Pull α)) :
    okRecords (a ++ b) = okRecords a ++ okRecords b := by
  simp [okRecords]

theorem okRecords_map_ok {α : Type} (recs : List α) :
    okRecords (recs.map .ok) = recs := by
  induction recs with
  | nil => rfl
  | cons r rest ih => simp [okRecords] at ih ⊢; exact ih

/-- With re_raise_exceptions disabled, a pull that raises is logged and
skipped: the loop is equivalent to running only the successful pulls. -/
theorem runTaskAux_swallow_eq {α : Type} (pulls : List (Pull α)) :
    ∀ (sched : List Bool) (pending : List α),
      runTaskAux pulls sched false pending =
        runTaskAux ((okRecords pulls).map .ok) sched false pending := by
  induction pulls with
  | nil => intro sched pending; rfl
  | cons p rest ih =>
    intro sched pending
    cases p with
    | ok r =>
      have hok : okRecords (Pull.ok r :: rest) = r :: okRecords rest := by
        simp [okRecords]
      rw [hok]
      simp only [runTaskAux, List.map_cons]
      by_cases h : sched.headD false = true
      · rw [if_pos h, if_pos h, ih]
      · rw [if_neg h, if_neg h, ih]
    | err =>
      have herr : okRecords (Pull.err :: rest) = okRecords rest := by
        simp [okRecords]
      rw [herr]
      exact ih sched pending

/-- With re_raise_exceptions at its default, the first raising pull aborts
the run with an exception. -/
theorem runTaskAux_reraise_error {α : Type} (xs : List α) :
    ∀ (rest : List (Pull α)) (sched : List Bool) (pending : List α),
      ∃ evs, runTaskAux (xs.map .ok ++ .err :: rest) sched true pending =
        .error evs := by
  induction xs with
  | nil =>
    intro rest sched pending
    exact ⟨[], rfl⟩
  | cons x xs ih =>
    intro rest sched pending
    simp only [List.map_cons, List.cons_append, runTaskAux, List.append_eq]
    by_cases h : sched.headD false = true
    · rcases ih rest sched.tail [] with ⟨evs, hevs⟩
      refine ⟨segOf (pending ++ [x]) ++ evs, ?_⟩
      rw [if_pos h, hevs]
      rfl
    · rcases ih rest sched.tail (pending ++ [x]) with ⟨evs, hevs⟩
      refine ⟨evs, ?_⟩
      rw [if_neg h]
      exact hevs

/-- Claim C7: when the computation raises mid-pull, the runner with
re_raise_exceptions disabled swallows the error and keeps pulling, so every
record around the failure is still flushed and yielded; with the flag at its
default (true) the error propagates to the caller as an exception. -/
theorem c7_re_raise_flag {α : Type} (pre post : List α)
    (rest : List (Pull α)) (sched sched' : List Bool) :
    (∃ evs, runTask (pre.map .ok ++ .err :: post.map .ok) sched false = .ok evs ∧
       emittedRecords evs = pre ++ post ∧
       flushedRecords evs = pre ++ post) ∧
    (∃ evs, runTask (pre.map .ok ++ .err :: rest) sched' true = .error evs) := by
  constructor
  · have hok : okRecords (pre.map .ok ++ .err :: post.map .ok) = pre ++ post := by
      rw [okRecords_append, okRecords_map_ok]
      have : okRecords (Pull.err :: post.map .ok) = okRecords (post.map .ok) := by
        simp [okRecords]
      rw [this, okRecords_map_ok]
    refine ⟨(runBatches (pre ++ post) sched []).flatMap segOf, ?_, ?_, ?_⟩
    · rw [runTask, runTaskAux_swallow_eq, hok]
      exact runTaskAux_ok_eq (pre ++ post) sched false []
    · rw [emittedRecords_flatMap_segOf, runBatches_flatten]; rfl
    · rw [flushedRecords_flatMap_segOf, runBatches_flatten]; rfl
  · exact runTaskAux_reraise_error pre rest sched' []

/-- Witness for C7 at a concrete computation, schedule and failure point. -/
theorem c7_re_raise_flag_witness :
    (∃ evs, runTask ([1, 2].map .ok ++ .err :: [3].map .ok)
        [true, false, false] false = .ok evs ∧
       emittedRecords evs = [1, 2] ++ [3] ∧
       flushedRecords evs = [1, 2] ++ [3]) ∧
    (∃ evs, runTask ([1, 2].map .ok ++ .err :: [Pull.ok 3])
        [false, false, false] true = .error evs) :=
  c7_re_raise_flag [1, 2] [3] [Pull.ok 3] [true, false, false] [false, false, false]

/-- Python/JSON values that can appear as a primary-key payload: integers,
floats (represented by the integer they truncate to, which is all the source
observes of them), strings, lists, and None standing for any other shape. -/
inductive PV where
  | int (n : Int)
  | float (t : Int)
  | str (s : String)
  | list (xs : List PV)
  | pynone

/-- Python iteration as used by list(map(f, x)): lists iterate their
elements, strings iterate their characters, and anything else raises
TypeError. -/
def pyIter : PV → Except PyErr (List PV)
  | .list xs => .ok xs
  | .str s => .ok (s.toList.map fun c => .str (String.mk [c]))
  | _ => .error .typeError

/-- Content of the files visible to os.path.exists and json.load: a map from
path to the JSON value stored there (most recent write first). -/
def lookupFile (fs : List (String × PV)) (path : String) : Option PV :=
  (fs.find? fun kv => kv.1 == path).map (·.2)

/-- Normalization pk.replace applied in the source before json.loads: every
single-quote character becomes a double quote. -/
def normalizeQuotes (s : String) : String :=
  String.mk (s.toList.map fun c => if c = '\x27' then '\x22' else c)

def skipWs : List Char → List Char
  | [] => []
  | c :: cs => if c = ' ' ∨ c = '\x09' ∨ c = '\x0a' ∨ c = '\x0d'
               then skipWs cs else c :: cs

def digitsToNat (ds : List Char) : Nat :=
  ds.foldl (fun a c => a * 10 + (c.toNat - 48)) 0

/-- Parser states of the json.loads model: a value, the first element of an
array, or subsequent elements of an array with the accumulator so far. -/
inductive PMode where
  | val
  | elemsFirst
  | elemsMore (acc : List PV)

/-- Fuel-indexed recursive-descent parser modelling Python json.loads on the
JSON fragment that primary-key payloads use: integers, double-quoted strings
without escapes, and arrays, with whitespace. -/
def parseStep : Nat → PMode → List Char → Option (PV × List Char)
  | 0, _, _ => none
  | fuel + 1, .val, cs =>
    match skipWs cs with
    | [] => none
    | c :: rest =>
      if c = '-' then
        let ds := rest.takeWhile Char.isDigit
        let rem := rest.dropWhile Char.isDigit
        if ds.isEmpty then none else some (.int (-(digitsToNat ds : Int)), rem)
      else if c.isDigit then
        let ds := (c :: rest).takeWhile Char.isDigit
        let rem := (c :: rest).dropWhile Char.isDigit
        some (.int (digitsToNat ds : Nat), rem)
      else if c = '\x22' then
        let ds := rest.takeWhile (fun x => !(x == '\x22'))
        let rem := rest.dropWhile (fun x => !(x == '\x22'))
        match rem with
        | '\x22' :: rem2 => some (.str (String.mk ds), rem2)
        | _ => none
      else if c = '[' then parseStep fuel .elemsFirst rest
      else none
  | fuel + 1, .elemsFirst, cs =>
    match skipWs cs with
    | ']' :: rest => some (.list [], rest)
    | cs2 =>
      match parseStep fuel .val cs2 with
      | none => none
      | some (v, rem) => parseStep fuel (.elemsMore [v]) rem
  | fuel + 1, .elemsMore acc, cs =>
    match skipWs cs with
    | ']' :: rest => some (.list acc.reverse, rest)
    | ',' :: rest =>
      match parseStep fuel .val rest with
      | none => none
      | some (v, rem) => parseStep fuel (.elemsMore (v :: acc)) rem
    | _ => none

/-- Model of json.loads: parse one value and require only whitespace after
it; any failure yields none (the source turns this into a ValueError). -/
def jsonLoads (s : String) : Option PV :=
  let cs := s.toList
  match parseStep (2 * cs.length + 4) .val cs with
  | some (v, rem) => if (skipWs rem).isEmpty then some v else none
  | none => none

/-- Embedding of deserialize_pks from astra/database/utils.py, without the
final flatten step (recursive calls in the source run with flatten false).
The fuel argument stands for the Python recursion limit; every terminating
input succeeds for all sufficiently large fuel.  The second result component
counts the float-coercion warnings that log.warning would emit.  Integers
pass through; floats are coerced to int with a warning; lists map the
deserialization over their elements; a string is read from the file store if
it is an existing path and otherwise parsed as JSON after single-quote
normalization, and the loaded contents are then iterated and mapped over
(iterating a non-iterable raises TypeError); any other shape raises
ValueError. -/
def deserializeCore (fs : List (String × PV)) : Nat → PV → Except PyErr (PV × Nat)
  | 0, _ => .error .recursionError
  | _ + 1, .int n => .ok (.int n, 0)
  | _ + 1, .float t => .ok (.int t, 1)
  | _ + 1, .list [] => .ok (.list [], 0)
  | fuel + 1, .list (x :: rest) =>
    match deserializeCore fs fuel x with
    | .error e => .error e
    | .ok (y, w1) =>
      match deserializeCore fs fuel (.list rest) with
      | .error e => .error e
      | .ok (.list ys, w2) => .ok (.list (y :: ys), w1 + w2)
      | .ok _ => .error .recursionError  -- unreachable: a list maps to a list
  | fuel + 1, .str s =>
    match lookupFile fs s with
    | some contents =>
      match pyIter contents with
      | .error e => .error e
      | .ok elems => deserializeCore fs fuel (.list elems)
    | none =>
      match jsonLoads (normalizeQuotes s) with
      | some contents =>
        match pyIter contents with
        | .error e => .error e
        | .ok elems => deserializeCore fs fuel (.list elems)
      | none => .error .valueError
  | _ + 1, .pynone => .error .valueError

/-- Recursive flattening of nested lists.  Modelled from the spec: the
source's flatten helper lives in astra.utils, which is not among the source
files here; the spec requires deserialization to recursively flatten nested
lists into a flat list. -/
def pyFlatten : PV → List PV
  | .list [] => []
  | .list (x :: rest) => pyFlatten x ++ pyFlatten (.list rest)
  | v => [v]

/-- Embedding of deserialize_pks with its flatten parameter: the source
returns flatten([v]) when flatten is requested and v itself otherwise. -/
def deserialize_pks (fs : List (String × PV)) (fuel : Nat) (pk : PV)
    (flat : Bool) : Except PyErr (PV × Nat) :=
  match deserializeCore fs fuel pk with
  | .error e => .error e
  | .ok (v, w) => .ok (if flat then .list (pyFlatten (.list [v])) else v, w)

/-- Embedding of serialize_pks_to_path from astra/database/utils.py: mktemp
yields the given path and json.dump records the payload there (the newest
write shadows older content at the same path). -/
def serialize_pks_to_path (fs : List (String × PV)) (path : String)
    (pks : PV) : String × List (String × PV) :=
  (path, (path, pks) :: fs)

/-- Nested lists of integers: the shapes the round-trip property ranges
over. -/
def isNestedInts : PV → Bool
  | .int _ => true
  | .list [] => true
  | .list (x :: rest) => isNestedInts x && isNestedInts (.list rest)
  | _ => false

/-- The integer leaves of a nested list of integers, in order. -/
def flatInts : PV → List Int
  | .int n => [n]
  | .list [] => []
  | .list (x :: rest) => flatInts x ++ flatInts (.list rest)
  | _ => []

/-- Fuel sufficient for deserializeCore to fully traverse a value. -/
def needFuel : PV → Nat
  | .list (x :: rest) => max (needFuel x) (needFuel (.list rest)) + 1
  | _ => 1

theorem one_le_needFuel (v : PV) : 1 ≤ needFuel v := by
  cases v with
  | list xs => cases xs <;> simp [needFuel]
  | int n => simp [needFuel]
  | float t => simp [needFuel]
  | str s => simp [needFuel]
  | pynone => simp [needFuel]

/-- Deserialization of a nested list of integers returns it unchanged with
no warnings, for any file store, given enough fuel. -/
theorem deserializeCore_nested (fs : List (String × PV)) :
    ∀ (fuel : Nat) (v : PV), isNestedInts v = true → needFuel v ≤ fuel →
      deserializeCore fs fuel v = .ok (v, 0) := by
  intro fuel
  induction fuel with
  | zero =>
    intro v _ hf
    exact absurd (le_trans (one_le_needFuel v) hf) (by omega)
  | succ k ih =>
    intro v hv hf
    cases v with
    | int n => simp [deserializeCore]
    | float t => simp [isNestedInts] at hv
    | str s => simp [isNestedInts] at hv
    | pynone => simp [isNestedInts] at hv
    | list xs =>
      cases xs with
      | nil => simp [deserializeCore]
      | cons x rest =>
        have hv2 : isNestedInts x = true ∧ isNestedInts (.list rest) = true := by
          simpa [isNestedInts, Bool.and_eq_true] using hv
        have hf2 : max (needFuel x) (needFuel (.list rest)) + 1 ≤ k + 1 := by
          simpa [needFuel] using hf
        have hmax : max (needFuel x) (needFuel (.list rest)) ≤ k := by omega
        have h1 : needFuel x ≤ k := le_trans (le_max_left _ _) hmax
        have h2 : needFuel (.list rest) ≤ k := le_trans (le_max_right _ _) hmax
        have e1 := ih x hv2.1 h1
        have e2 := ih (.list rest) hv2.2 h2
        simp [deserializeCore, e1, e2]

/-- On nested lists of integers, flattening produces exactly the integer
leaves. -/
theorem pyFlatten_eq_flatInts :
    ∀ (v : PV), isNestedInts v = true → pyFlatten v = (flatInts v).map PV.int := by
  intro v
  induction v using pyFlatten.induct with
  | case1 =>
    intro _
    simp [pyFlatten, flatInts]
  | case2 x rest ihx ihrest =>
    intro hv
    have hv2 : isNestedInts x = true ∧ isNestedInts (.list rest) = true := by
      simpa [isNestedInts, Bool.and_eq_true] using hv
    simp [pyFlatten, flatInts, ihx hv2.1, ihrest hv2.2]
  | case3 v hne1 hne2 =>
    intro hv
    cases v with
    | int n => simp [pyFlatten, flatInts]
    | float t => simp [isNestedInts] at hv
    | str s => simp [isNestedInts] at hv
    | pynone => simp [isNestedInts] at hv
    | list xs =>
      cases xs with
      | nil => exact absurd rfl hne1
      | cons x rest => exact absurd rfl (hne2 x rest)

/-- Claim C5: serializing a nested list of integers to a path and
deserializing that path with flatten reproduces the flattened integer list
with no warnings; a direct integer is accepted unchanged; a float is coerced
to an integer with one warning; a non-path string is parsed as a JSON-like
literal with single quotes normalized to double quotes; a malformed string
and a non-int/float/list/str shape raise the deserialization ValueError. -/
theorem c5_pk_serialization_round_trip (fs : List (String × PV)) (path : String)
    (xs : List PV) (fuel : Nat)
    (hnest : isNestedInts (.list xs) = true)
    (hfuel : needFuel (.list xs) + 1 ≤ fuel) :
    (deserialize_pks (serialize_pks_to_path fs path (.list xs)).2 fuel
        (.str (serialize_pks_to_path fs path (.list xs)).1) true =
      .ok (.list ((flatInts (.list xs)).map PV.int), 0)) ∧
    (∀ n : Int, deserialize_pks fs fuel (.int n) false = .ok (.int n, 0)) ∧
    (∀ t : Int, deserialize_pks fs fuel (.float t) false = .ok (.int t, 1)) ∧
    (deserialize_pks [] 5 (.str "[\x27[1]\x27, 2]") false =
      .ok (.list [.list [.int 1], .int 2], 0)) ∧
    (deserialize_pks [] 5 (.str "not json") false = .error .valueError) ∧
    (deserialize_pks fs fuel .pynone false = .error .valueError) := by
  obtain ⟨k, rfl⟩ : ∃ k, fuel = k + 1 := ⟨fuel - 1, by omega⟩
  refine ⟨?_, ?_, ?_, rfl, rfl, ?_⟩
  · have hn : needFuel (.list xs) ≤ k := by omega
    have hrec := deserializeCore_nested ((path, PV.list xs) :: fs) k (.list xs) hnest hn
    have hcore : deserializeCore ((path, PV.list xs) :: fs) (k + 1) (.str path) =
        .ok (.list xs, 0) := by
      simp [deserializeCore, lookupFile, pyIter, hrec]
    have hfl : pyFlatten (.list [.list xs]) = (flatInts (.list xs)).map PV.int := by
      have h := pyFlatten_eq_flatInts (.list xs) hnest
      simp [pyFlatten, h]
    simp [serialize_pks_to_path, deserialize_pks, hcore, hfl]
  · intro n; simp [deserialize_pks, deserializeCore]
  · intro t; simp [deserialize_pks, deserializeCore]
  · simp [deserialize_pks, deserializeCore]

/-- Witness for C5 on the spec's own example, the nested list [[1,2],[3]]. -/
theorem c5_pk_serialization_round_trip_witness :
    (deserialize_pks
        (serialize_pks_to_path [] "tmpfile"
          (.list [.list [.int 1, .int 2], .list [.int 3]])).2 5
        (.str (serialize_pks_to_path [] "tmpfile"
          (.list [.list [.int 1, .int 2], .list [.int 3]])).1) true =
      .ok (.list ((flatInts
        (.list [.list [.int 1, .int 2], .list [.int 3]])).map PV.int), 0)) ∧
    (∀ n : Int, deserialize_pks [] 5 (.int n) false = .ok (.int n, 0)) ∧
    (∀ t : Int, deserialize_pks [] 5 (.float t) false = .ok (.int t, 1)) ∧
    (deserialize_pks [] 5 (.str "[\x27[1]\x27, 2]") false =
      .ok (.list [.list [.int 1], .int 2], 0)) ∧
    (deserialize_pks [] 5 (.str "not json") false = .error .valueError) ∧
    (deserialize_pks [] 5 .pynone false = .error .valueError) :=
  c5_pk_serialization_round_trip [] "tmpfile"
    [.list [.int 1, .int 2], .list [.int 3]] 5
    (by simp [isNestedInts]) (by simp [needFuel])

/-- Claim C10: a string whose JSON content is a single bare integer (the
literal string 5, or a path to a file storing 5) makes deserialize_pks
iterate over an integer, raising TypeError, which is distinct from the
documented deserialization ValueError. -/
theorem c10_bare_integer_payload_raises_type_error :
    deserialize_pks [] 3 (.str "5") false = .error .typeError ∧
    deserialize_pks [("pksfile", .int 5)] 3 (.str "pksfile") false =
      .error .typeError ∧
    PyErr.typeError ≠ PyErr.valueError :=
  ⟨rfl, rfl, by decide⟩

/-- Claim C4: when the initial lookup misses and a concurrent writer commits
the same (name, value) pair before our insert, the insert raises
IntegrityError and the function recovers by re-querying: it returns the
winner's primary key instead of failing, and the store still holds exactly
one row for the pair. -/
theorem c4_parameter_get_or_create_race_safe (db : DB) (name : String)
    (value : PValue)
    (hnone : db.parameters.filter (fun p =>
        decide (p.parameter_name = name ∧ p.parameter_value = serialize value))
      = []) :
    get_or_create_parameter_pk db (some (name, value)) name value =
      .ok ({ db with
               parameters := db.parameters ++
                 [(⟨db.next_parameter_pk, name, serialize value⟩ : ParamRow)],
               next_parameter_pk := db.next_parameter_pk + 1 },
           db.next_parameter_pk, true) ∧
    ((db.parameters ++
        [(⟨db.next_parameter_pk, name, serialize value⟩ : ParamRow)]).filter
        (fun p => decide (p.parameter_name = name ∧
          p.parameter_value = serialize value))).length = 1 := by
  have hfilter2 : (db.parameters ++
      [(⟨db.next_parameter_pk, name, serialize value⟩ : ParamRow)]).filter
      (fun p => decide (p.parameter_name = name ∧
        p.parameter_value = serialize value))
      = [⟨db.next_parameter_pk, name, serialize value⟩] := by
    rw [List.filter_append, hnone]
    simp
  refine ⟨?_, by rw [hfilter2]; rfl⟩
  have hcond : (db.parameters ++
      [(⟨db.next_parameter_pk, name, serialize value⟩ : ParamRow)]).any
      (fun p => decide (p.parameter_name = name ∧
        p.parameter_value = serialize value)) = true := by
    apply List.any_eq_true.mpr
    exact ⟨⟨db.next_parameter_pk, name, serialize value⟩, by simp, by simp⟩
  simp only [get_or_create_parameter_pk, hnone, oneOrNone]
  rw [if_pos hcond, hfilter2]

/-- Witness for C4 on an empty store and the pair (release, sdss5). -/
theorem c4_parameter_get_or_create_race_safe_witness :
    get_or_create_parameter_pk DB.empty (some ("release", .s "sdss5"))
        "release" (.s "sdss5") =
      .ok ({ DB.empty with
               parameters := DB.empty.parameters ++
                 [(⟨DB.empty.next_parameter_pk, "release",
                    serialize (.s "sdss5")⟩ : ParamRow)],
               next_parameter_pk := DB.empty.next_parameter_pk + 1 },
           DB.empty.next_parameter_pk, true) ∧
    ((DB.empty.parameters ++
        [(⟨DB.empty.next_parameter_pk, "release",
           serialize (.s "sdss5")⟩ : ParamRow)]).filter
        (fun p => decide (p.parameter_name = "release" ∧
          p.parameter_value = serialize (.s "sdss5")))).length = 1 :=
  c4_parameter_get_or_create_race_safe DB.empty "release" (.s "sdss5") rfl

/-- The three writes create_task_output performs, in order of commit. -/
inductive WriteEvent where
  | wInterface (pk : Nat)
  | wRecord (ti_pk output_pk : Nat)
  | wLink (ti_pk output_pk : Nat)
deriving DecidableEq, Repr

/-- Embedding of create_task_output from astra/database/utils.py: resolve
the task instance (the pk variant queries with one_or_none; on a miss the
source's raise trips over the undefined name task_instance_pk in its message
f-string, so Python raises NameError before any write), then in order create
a fresh OutputInterface row, insert the OutputRecord stamped with ti_pk and
output_pk, and finally update TaskInstance.output_pk.  The returned event
list records the commit order; an error leaves the store untouched. -/
def create_task_output (db : DB) (ti_ref : TaskInstanceRow ⊕ Nat)
    (fields : List (String × String)) :
    DB × Except PyErr (OutputRow × List WriteEvent) :=
  let resolved : Except PyErr TaskInstanceRow :=
    match ti_ref with
    | .inl ti => .ok ti
    | .inr pk =>
      match oneOrNone (db.task_instances.filter fun t => decide (t.pk = pk)) with
      | .error e => .error e
      | .ok (some t) => .ok t
      | .ok none => .error .nameError
  match resolved with
  | .error e => (db, .error e)
  | .ok task_instance =>
    let opk := db.next_output_pk
    let db1 := { db with
                   output_interfaces := db.output_interfaces ++ [opk],
                   next_output_pk := opk + 1 }
    let row : OutputRow := ⟨task_instance.pk, opk, fields⟩
    let db2 := { db1 with output_records := db1.output_records ++ [row] }
    let db3 := { db2 with
                   task_instances := db2.task_instances.map fun t =>
                     if t.pk = task_instance.pk
                     then { t with output_pk := some opk } else t }
    (db3, .ok (row, [.wInterface opk, .wRecord task_instance.pk opk,
                     .wLink task_instance.pk opk]))

theorem filter_pk_map (p : Nat) (u : TaskInstanceRow → TaskInstanceRow)
    (hu : ∀ t, (u t).pk = t.pk) :
    ∀ (l : List TaskInstanceRow),
      (l.map u).filter (fun t => decide (t.pk = p)) =
        (l.filter (fun t => decide (t.pk = p))).map u := by
  intro l
  induction l with
  | nil => rfl
  | cons t rest ih =>
    by_cases h : t.pk = p
    · simp [List.filter_cons, hu t, h, ih]
    · simp [List.filter_cons, hu t, h, ih]

/-- Behavior of create_task_output when the primary key resolves to exactly
one task instance. -/
theorem create_task_output_found (db : DB) (p : Nat) (ti : TaskInstanceRow)
    (fields : List (String × String))
    (hti : db.task_instances.filter (fun t => decide (t.pk = p)) = [ti]) :
    create_task_output db (.inr p) fields =
      ({ db with
           output_interfaces := db.output_interfaces ++ [db.next_output_pk],
           next_output_pk := db.next_output_pk + 1,
           output_records := db.output_records ++
             [(⟨ti.pk, db.next_output_pk, fields⟩ : OutputRow)],
           task_instances := db.task_instances.map fun t =>
             if t.pk = ti.pk
             then { t with output_pk := some db.next_output_pk } else t },
       .ok (⟨ti.pk, db.next_output_pk, fields⟩,
            [.wInterface db.next_output_pk, .wRecord ti.pk db.next_output_pk,
             .wLink ti.pk db.next_output_pk])) := by
  simp only [create_task_output, hti, oneOrNone]

/-- Claim C6: calling create_task_output twice on the same task instance
leaves both OutputRecord rows in the store (the first is retained), sets
TaskInstance.output_pk to the OutputInterface pk created by the second call,
gives the two records distinct interface pks, and performs the three writes
of each call in the order interface, record, link. -/
theorem c6_output_history (db : DB) (p : Nat) (ti : TaskInstanceRow)
    (f1 f2 : List (String × String))
    (hti : db.task_instances.filter (fun t => decide (t.pk = p)) = [ti]) :
    ∃ db1 r1 evs1 db2 r2 evs2,
      create_task_output db (.inr p) f1 = (db1, .ok (r1, evs1)) ∧
      create_task_output db1 (.inr p) f2 = (db2, .ok (r2, evs2)) ∧
      db2.output_records = db.output_records ++ [r1, r2] ∧
      (db2.task_instances.filter (fun t => decide (t.pk = p))).map (·.output_pk)
        = [some r2.output_pk] ∧
      r1.output_pk ≠ r2.output_pk ∧
      evs1 = [.wInterface r1.output_pk, .wRecord ti.pk r1.output_pk,
              .wLink ti.pk r1.output_pk] ∧
      evs2 = [.wInterface r2.output_pk, .wRecord ti.pk r2.output_pk,
              .wLink ti.pk r2.output_pk] := by
  have hu1 : ∀ t : TaskInstanceRow,
      ((fun t => if t.pk = ti.pk
          then { t with output_pk := some db.next_output_pk } else t) t).pk
        = t.pk := by
    intro t; by_cases h : t.pk = ti.pk <;> simp [h]
  have e1 := create_task_output_found db p ti f1 hti
  have hti2 : ((db.task_instances.map fun t =>
      if t.pk = ti.pk
      then { t with output_pk := some db.next_output_pk } else t).filter
      (fun t => decide (t.pk = p))) =
      [{ ti with output_pk := some db.next_output_pk }] := by
    rw [filter_pk_map p _ hu1, hti]
    simp
  have e2 := create_task_output_found
      { db with
          output_interfaces := db.output_interfaces ++ [db.next_output_pk],
          next_output_pk := db.next_output_pk + 1,
          output_records := db.output_records ++
            [(⟨ti.pk, db.next_output_pk, f1⟩ : OutputRow)],
          task_instances := db.task_instances.map fun t =>
            if t.pk = ti.pk
            then { t with output_pk := some db.next_output_pk } else t }
      p { ti with output_pk := some db.next_output_pk } f2 hti2
  have hu2 : ∀ t : TaskInstanceRow,
      ((fun t => if t.pk = ti.pk
          then { t with output_pk := some (db.next_output_pk + 1) } else t) t).pk
        = t.pk := by
    intro t; by_cases h : t.pk = ti.pk <;> simp [h]
  refine ⟨_, _, _, _, _, _, e1, e2, ?_, ?_, ?_, rfl, rfl⟩
  · simp
  · show (((db.task_instances.map fun t =>
        if t.pk = ti.pk
        then { t with output_pk := some db.next_output_pk } else t).map (fun t =>
        if t.pk = ti.pk
        then { t with output_pk := some (db.next_output_pk + 1) } else t)).filter
        (fun t => decide (t.pk = p))).map (fun t => t.output_pk)
        = [some (db.next_output_pk + 1)]
    rw [filter_pk_map p _ hu2, hti2]
    simp
  · show db.next_output_pk ≠ db.next_output_pk + 1
    omega

/-- Witness for C6 on a one-instance store. -/
theorem c6_output_history_witness :
    ∃ db1 r1 evs1 db2 r2 evs2,
      create_task_output ⟨[], [⟨7, "d", "t", "r", none⟩], [], [], [], 0, 8, 0⟩
          (.inr 7) [("snr", "10")] = (db1, .ok (r1, evs1)) ∧
      create_task_output db1 (.inr 7) [("snr", "11")] = (db2, .ok (r2, evs2)) ∧
      db2.output_records =
        (⟨[], [⟨7, "d", "t", "r", none⟩], [], [], [], 0, 8, 0⟩ : DB).output_records
          ++ [r1, r2] ∧
      (db2.task_instances.filter (fun t => decide (t.pk = 7))).map (·.output_pk)
        = [some r2.output_pk] ∧
      r1.output_pk ≠ r2.output_pk ∧
      evs1 = [.wInterface r1.output_pk,
              .wRecord (⟨7, "d", "t", "r", none⟩ : TaskInstanceRow).pk r1.output_pk,
              .wLink (⟨7, "d", "t", "r", none⟩ : TaskInstanceRow).pk r1.output_pk] ∧
      evs2 = [.wInterface r2.output_pk,
              .wRecord (⟨7, "d", "t", "r", none⟩ : TaskInstanceRow).pk r2.output_pk,
              .wLink (⟨7, "d", "t", "r", none⟩ : TaskInstanceRow).pk r2.output_pk] :=
  c6_output_history ⟨[], [⟨7, "d", "t", "r", none⟩], [], [], [], 0, 8, 0⟩ 7
    ⟨7, "d", "t", "r", none⟩ [("snr", "10")] [("snr", "11")] rfl

/-- Claim C8: create_task_output on a primary key that resolves to no task
instance fails before any write, leaving the store unchanged and creating no
OutputInterface or OutputRecord row.  The source intends a ValueError
reporting the unresolvable pk, but its message f-string names the undefined
variable task_instance_pk, so the call actually raises NameError, which does
not report the pk. -/
theorem c8_missing_task_instance_raises_name_error :
    create_task_output ⟨[], [⟨1, "d", "t", "r", none⟩], [], [], [], 0, 2, 0⟩
        (.inr 999) [("f", "x")] =
      (⟨[], [⟨1, "d", "t", "r", none⟩], [], [], [], 0, 2, 0⟩, .error .nameError) ∧
    PyErr.nameError ≠ PyErr.valueError :=
  ⟨rfl, by decide⟩

/-- Effective parameter map of a task instance.  Modelled from the spec: the
TaskInstance.parameters property lives in the astradb model module, which is
not among the source files here; per the spec, the effective parameter set is
exactly the set of Parameter rows joined to the instance, as name/value
pairs. -/
def task_instance_parameters (db : DB) (ti_pk : Nat) : List (String × String) :=
  (db.ti_parameters.filter fun l => decide (l.ti_pk = ti_pk)).filterMap fun l =>
    (db.parameters.find? fun q => decide (q.pk = l.parameter_pk)).map fun q =>
      (q.parameter_name, q.parameter_value)

/-- Embedding of del_task_instance_parameter from astra/database/utils.py:
a key absent from the effective parameter map raises KeyError, which the
source catches and turns into a no-op; a present key is resolved to its
Parameter pk, the join row is looked up with one_or_none and deleted
(deleting a missing row raises, as session.delete(None) does), and the final
assert checks the key is gone. -/
def del_task_instance_parameter (db : DB) (ti : TaskInstanceRow) (key : String) :
    Except PyErr (DB × Bool) :=
  match (task_instance_parameters db ti.pk).find? (fun kv => decide (kv.1 = key)) with
  | none =>
    if (task_instance_parameters db ti.pk).any (fun kv => decide (kv.1 = key))
    then .error .assertionError
    else .ok (db, true)
  | some kv =>
    match get_or_create_parameter_pk db none key (.s kv.2) with
    | .error e => .error e
    | .ok (db1, ppk, _) =>
      match oneOrNone (db1.ti_parameters.filter fun l =>
          decide (l.ti_pk = ti.pk ∧ l.parameter_pk = ppk)) with
      | .error e => .error e
      | .ok none => .error .unmappedInstanceError
      | .ok (some l) =>
        let db2 := { db1 with ti_parameters := db1.ti_parameters.erase l }
        if (task_instance_parameters db2 ti.pk).any (fun kv2 => decide (kv2.1 = key))
        then .error .assertionError
        else .ok (db2, true)

/-- Claim C9: removing a key that is not in the task instance's effective
parameter map returns without error and leaves the store (parameter links,
Parameter table, and every other field) unchanged. -/
theorem c9_remove_absent_parameter_is_noop (db : DB) (ti : TaskInstanceRow)
    (key : String)
    (habs : ∀ kv ∈ task_instance_parameters db ti.pk, kv.1 ≠ key) :
    del_task_instance_parameter db ti key = .ok (db, true) := by
  have hfind : (task_instance_parameters db ti.pk).find?
      (fun kv => decide (kv.1 = key)) = none := by
    rw [List.find?_eq_none]
    intro kv hkv
    simpa using habs kv hkv
  have hany : (task_instance_parameters db ti.pk).any
      (fun kv => decide (kv.1 = key)) = false := by
    rw [List.any_eq_false]
    intro kv hkv
    simpa using habs kv hkv
  simp only [del_task_instance_parameter, hfind, hany]
  rfl

/-- Witness for C9: a store whose only instance carries the parameter a,
asked to remove the absent key b. -/
theorem c9_remove_absent_parameter_is_noop_witness :
    del_task_instance_parameter
        ⟨[⟨0, "a", "1"⟩], [⟨5, "d", "t", "r", none⟩], [⟨5, 0⟩], [], [], 1, 6, 0⟩
        ⟨5, "d", "t", "r", none⟩ "b" =
      .ok (⟨[⟨0, "a", "1"⟩], [⟨5, "d", "t", "r", none⟩], [⟨5, 0⟩], [], [], 1, 6, 0⟩,
           true) :=
  c9_remove_absent_parameter_is_noop
    ⟨[⟨0, "a", "1"⟩], [⟨5, "d", "t", "r", none⟩], [⟨5, 0⟩], [], [], 1, 6, 0⟩
    ⟨5, "d", "t", "r", none⟩ "b" (by decide)

/-- Match condition of the parameter sub-query of get_task_instance: the SQL
or-of-ands over the requested pairs compares each Parameter row's name and
serialized value against a pair. -/
def matchesPair (p : ParamRow) (kv : String × PValue) : Prop :=
  p.parameter_name = kv.1 ∧ p.parameter_value = serialize kv.2

instance (p : ParamRow) (kv : String × PValue) : Decidable (matchesPair p kv) :=
  inferInstanceAs (Decidable (_ ∧ _))

/-- Run filter of get_task_instance: applied only when run_id is not None. -/
def run_id_matches (run_id : Option String) (ti : TaskInstanceRow) : Bool :=
  match run_id with
  | none => true
  | some r => decide (ti.run_id = r)

/-- Parameter sub-query q_p of get_task_instance: the Parameter rows whose
(name, serialized value) equals one of the requested pairs. -/
def gti_qp (db : DB) (parameters : List (String × PValue)) : List ParamRow :=
  db.parameters.filter fun p => decide (∃ kv ∈ parameters, matchesPair p kv)

def gti_qp_pks (db : DB) (parameters : List (String × PValue)) : List Nat :=
  (gti_qp db parameters).map (·.pk)

/-- Join rows restricted to the resolved parameter pks (the WHERE
parameter_pk IN q_p of the first subquery). -/
def gti_rows1 (db : DB) (parameters : List (String × PValue)) :
    List TaskInstanceParameterRow :=
  db.ti_parameters.filter fun l => decide (l.parameter_pk ∈ gti_qp_pks db parameters)

/-- First subquery of get_task_instance: GROUP BY ti_pk over the restricted
join rows, HAVING COUNT(DISTINCT parameter_pk) equal to the number of
resolved parameter rows.  COUNT(DISTINCT x) is the card of the toFinset of
the grouped column; the groups are the deduplicated ti_pks occurring in the
filtered rows. -/
def gti_sq1 (db : DB) (parameters : List (String × PValue)) : List Nat :=
  ((gti_rows1 db parameters).map (·.ti_pk)).dedup.filter fun t =>
    decide ((((gti_rows1 db parameters).filter fun l =>
      decide (l.ti_pk = t)).map (·.parameter_pk)).toFinset.card
        = (gti_qp db parameters).length)

/-- Join rows of task instances retained by the first subquery (the JOIN of
the exact-match refinement). -/
def gti_rows2 (db : DB) (parameters : List (String × PValue)) :
    List TaskInstanceParameterRow :=
  db.ti_parameters.filter fun l => decide (l.ti_pk ∈ gti_sq1 db parameters)

/-- Exact-match subquery of get_task_instance: GROUP BY ti_pk over all join
rows of the candidates, HAVING COUNT(DISTINCT parameter_pk) equal to the
number of requested pairs. -/
def gti_sq2 (db : DB) (parameters : List (String × PValue)) : List Nat :=
  ((gti_rows2 db parameters).map (·.ti_pk)).dedup.filter fun t =>
    decide ((((gti_rows2 db parameters).filter fun l =>
      decide (l.ti_pk = t)).map (·.parameter_pk)).toFinset.card
        = parameters.length)

/-- Embedding of get_task_instance from astra/database/utils.py (the
disabled if-False pre-check in the source is dead code and omitted): resolve
the requested pairs to Parameter rows and short-circuit to none when fewer
rows than pairs exist; then narrow task instances through the two grouped
subqueries, filter on dag_id, task_id and (when given) run_id, and finish
with one_or_none. -/
def get_task_instance (db : DB) (dag_id task_id : String)
    (run_id : Option String) (parameters : List (String × PValue)) :
    Except PyErr (Option TaskInstanceRow) :=
  if (gti_qp db parameters).length < parameters.length then .ok none
  else
    oneOrNone (db.task_instances.filter fun ti =>
      decide (ti.pk ∈ gti_sq2 db parameters) && decide (ti.dag_id = dag_id) &&
      decide (ti.task_id = task_id) && run_id_matches run_id ti)

/-- Parameter pks joined to a task instance. -/
def links_of (db : DB) (t : Nat) : List Nat :=
  (db.ti_parameters.filter fun l => decide (l.ti_pk = t)).map (·.parameter_pk)

/-- The set of Parameter pks that resolve the requested pairs. -/
def required_pks (db : DB) (parameters : List (String × PValue)) : Finset Nat :=
  (gti_qp_pks db parameters).toFinset

/-- Whether a requested (name, value) pair has a Parameter row. -/
def resolves_pair (db : DB) (kv : String × PValue) : Bool :=
  db.parameters.any fun p => decide (matchesPair p kv)

/-- Content-address invariant of the parameter table: no two rows share
(name, serialized value). -/
def param_content_nodup (db : DB) : Prop :=
  (db.parameters.map fun p => (p.parameter_name, p.parameter_value)).Nodup

/-- Primary-key invariant of the parameter table. -/
def param_pk_nodup (db : DB) : Prop :=
  (db.parameters.map (·.pk)).Nodup

/-- Serialized forms of the requested pairs. -/
def skeys (parameters : List (String × PValue)) : List (String × String) :=
  parameters.map fun kv => (kv.1, serialize kv.2)

theorem gti_qp_map_content_nodup (db : DB) (ps : List (String × PValue))
    (hU : param_content_nodup db) :
    ((gti_qp db ps).map fun p => (p.parameter_name, p.parameter_value)).Nodup :=
  List.Nodup.sublist
    (List.Sublist.map _ (List.filter_sublist db.parameters)) hU

theorem gti_qp_map_subset_skeys (db : DB) (ps : List (String × PValue)) :
    ∀ x ∈ (gti_qp db ps).map fun p => (p.parameter_name, p.parameter_value),
      x ∈ skeys ps := by
  intro x hx
  rcases List.mem_map.mp hx with ⟨p, hp, rfl⟩
  have hp2 := List.of_mem_filter hp
  obtain ⟨kv, hkv, hm⟩ := of_decide_eq_true hp2
  exact List.mem_map.mpr ⟨kv, hkv, by simp [hm.1, hm.2]⟩

theorem skeys_nodup (ps : List (String × PValue))
    (hK : (ps.map Prod.fst).Nodup) : (skeys ps).Nodup := by
  apply List.Nodup.of_map Prod.fst
  rw [skeys, List.map_map]
  exact hK

/-- The parameter sub-query returns at most one row per requested pair. -/
theorem gti_qp_length_le (db : DB) (ps : List (String × PValue))
    (hU : param_content_nodup db) :
    (gti_qp db ps).length ≤ ps.length := by
  classical
  have hnd := gti_qp_map_content_nodup db ps hU
  calc (gti_qp db ps).length
      = ((gti_qp db ps).map fun p => (p.parameter_name, p.parameter_value)).length :=
        (List.length_map _ _).symm
    _ = ((gti_qp db ps).map fun p =>
          (p.parameter_name, p.parameter_value)).toFinset.card :=
        (List.toFinset_card_of_nodup hnd).symm
    _ ≤ (skeys ps).toFinset.card := by
        apply Finset.card_le_card
        intro x hx
        exact List.mem_toFinset.mpr
          (gti_qp_map_subset_skeys db ps x (List.mem_toFinset.mp hx))
    _ ≤ (skeys ps).length := List.toFinset_card_le _
    _ = ps.length := List.length_map _ _

/-- When every requested pair resolves, the parameter sub-query returns at
least one row per pair. -/
theorem length_le_gti_qp (db : DB) (ps : List (String × PValue))
    (hK : (ps.map Prod.fst).Nodup)
    (hall : ∀ kv ∈ ps, resolves_pair db kv = true) :
    ps.length ≤ (gti_qp db ps).length := by
  classical
  have hsub : ∀ x ∈ skeys ps,
      x ∈ (gti_qp db ps).map fun p => (p.parameter_name, p.parameter_value) := by
    intro x hx
    rcases List.mem_map.mp hx with ⟨kv, hkv, rfl⟩
    rcases List.any_eq_true.mp (hall kv hkv) with ⟨p, hp, hm⟩
    have hm2 := of_decide_eq_true hm
    exact List.mem_map.mpr
      ⟨p, List.mem_filter.mpr ⟨hp, decide_eq_true ⟨kv, hkv, hm2⟩⟩,
       by simp [hm2.1, hm2.2]⟩
  calc ps.length = (skeys ps).length := (List.length_map _ _).symm
    _ = (skeys ps).toFinset.card :=
        (List.toFinset_card_of_nodup (skeys_nodup ps hK)).symm
    _ ≤ ((gti_qp db ps).map fun p =>
          (p.parameter_name, p.parameter_value)).toFinset.card := by
        apply Finset.card_le_card
        intro x hx
        exact List.mem_toFinset.mpr (hsub x (List.mem_toFinset.mp hx))
    _ ≤ ((gti_qp db ps).map fun p =>
          (p.parameter_name, p.parameter_value)).length := List.toFinset_card_le _
    _ = (gti_qp db ps).length := List.length_map _ _

/-- When the parameter sub-query resolves exactly one row per pair, every
pair resolves. -/
theorem resolves_of_length_eq (db : DB) (ps : List (String × PValue))
    (hU : param_content_nodup db) (hK : (ps.map Prod.fst).Nodup)
    (hlen : (gti_qp db ps).length = ps.length) :
    ∀ kv ∈ ps, resolves_pair db kv = true := by
  classical
  have hnd := gti_qp_map_content_nodup db ps hU
  have hQS : ((gti_qp db ps).map fun p =>
      (p.parameter_name, p.parameter_value)).toFinset = (skeys ps).toFinset := by
    apply Finset.eq_of_subset_of_card_le
    · intro x hx
      exact List.mem_toFinset.mpr
        (gti_qp_map_subset_skeys db ps x (List.mem_toFinset.mp hx))
    · calc (skeys ps).toFinset.card ≤ (skeys ps).length := List.toFinset_card_le _
        _ = ps.length := List.length_map _ _
        _ = (gti_qp db ps).length := hlen.symm
        _ = ((gti_qp db ps).map fun p =>
              (p.parameter_name, p.parameter_value)).length :=
            (List.length_map _ _).symm
        _ = ((gti_qp db ps).map fun p =>
              (p.parameter_name, p.parameter_value)).toFinset.card :=
            (List.toFinset_card_of_nodup hnd).symm
  intro kv hkv
  have hmem : (kv.1, serialize kv.2) ∈ ((gti_qp db ps).map fun p =>
      (p.parameter_name, p.parameter_value)).toFinset := by
    rw [hQS]
    exact List.mem_toFinset.mpr (List.mem_map.mpr ⟨kv, hkv, rfl⟩)
  rcases List.mem_map.mp (List.mem_toFinset.mp hmem) with ⟨p, hp, hfp⟩
  apply List.any_eq_true.mpr
  refine ⟨p, List.mem_of_mem_filter hp, decide_eq_true ?_⟩
  exact ⟨congrArg Prod.fst hfp, congrArg Prod.snd hfp⟩

/-- When some requested pair has no Parameter row, the sub-query comes up
short, which is the short-circuit to not-found. -/
theorem gti_qp_length_lt_of_missing (db : DB) (ps : List (String × PValue))
    (hU : param_content_nodup db) (hK : (ps.map Prod.fst).Nodup)
    (kv : String × PValue) (hkv : kv ∈ ps)
    (hmiss : resolves_pair db kv = false) :
    (gti_qp db ps).length < ps.length := by
  classical
  have hnd := gti_qp_map_content_nodup db ps hU
  have hx : (kv.1, serialize kv.2) ∉ ((gti_qp db ps).map fun p =>
      (p.parameter_name, p.parameter_value)).toFinset := by
    intro hmem
    rcases List.mem_map.mp (List.mem_toFinset.mp hmem) with ⟨p, hp, hfp⟩
    have : resolves_pair db kv = true := by
      apply List.any_eq_true.mpr
      exact ⟨p, List.mem_of_mem_filter hp,
        decide_eq_true ⟨congrArg Prod.fst hfp, congrArg Prod.snd hfp⟩⟩
    rw [hmiss] at this
    exact Bool.false_ne_true this
  have hsub2 : ((gti_qp db ps).map fun p =>
      (p.parameter_name, p.parameter_value)).toFinset ⊆
      (skeys ps).toFinset.erase (kv.1, serialize kv.2) := by
    apply Finset.subset_erase.mpr
    constructor
    · intro x hx2
      exact List.mem_toFinset.mpr
        (gti_qp_map_subset_skeys db ps x (List.mem_toFinset.mp hx2))
    · exact hx
  have hkmem : (kv.1, serialize kv.2) ∈ (skeys ps).toFinset :=
    List.mem_toFinset.mpr (List.mem_map.mpr ⟨kv, hkv, rfl⟩)
  have hcard : ((gti_qp db ps).map fun p =>
      (p.parameter_name, p.parameter_value)).toFinset.card ≤ ps.length - 1 := by
    calc _ ≤ ((skeys ps).toFinset.erase (kv.1, serialize kv.2)).card :=
          Finset.card_le_card hsub2
      _ = (skeys ps).toFinset.card - 1 := Finset.card_erase_of_mem hkmem
      _ ≤ (skeys ps).length - 1 := Nat.sub_le_sub_right (List.toFinset_card_le _) 1
      _ = ps.length - 1 := by rw [skeys, List.length_map]
  have hnp : (gti_qp db ps).length = ((gti_qp db ps).map fun p =>
      (p.parameter_name, p.parameter_value)).toFinset.card := by
    rw [List.toFinset_card_of_nodup hnd, List.length_map]
  have hlen1 : 1 ≤ ps.length := List.length_pos.mpr (List.ne_nil_of_mem hkv)
  omega

theorem filter_tipk_restrict (l : List TaskInstanceParameterRow) (s : List Nat)
    (t : Nat) (ht : t ∈ s) :
    (l.filter fun x => decide (x.ti_pk ∈ s)).filter (fun x => decide (x.ti_pk = t)) =
      l.filter (fun x => decide (x.ti_pk = t)) := by
  induction l with
  | nil => rfl
  | cons x rest ih =>
    by_cases h : x.ti_pk = t
    · have hs : x.ti_pk ∈ s := by rw [h]; exact ht
      simp [List.filter_cons, h, hs, ht, ih]
    · by_cases h2 : x.ti_pk ∈ s <;> simp [List.filter_cons, h, h2, ih]

theorem map_pk_filter_mem (l : List TaskInstanceParameterRow) (s : List Nat) :
    (l.filter fun x => decide (x.parameter_pk ∈ s)).map (·.parameter_pk) =
      (l.map (·.parameter_pk)).filter fun a => decide (a ∈ s) := by
  induction l with
  | nil => rfl
  | cons x rest ih =>
    by_cases h : x.parameter_pk ∈ s <;> simp [List.filter_cons, h, ih]

/-- The per-instance column of the first subquery is the instance's link
list restricted to the resolved parameter pks. -/
theorem sq1_links (db : DB) (ps : List (String × PValue)) (t : Nat) :
    ((gti_rows1 db ps).filter fun l => decide (l.ti_pk = t)).map (·.parameter_pk) =
      (links_of db t).filter fun a => decide (a ∈ gti_qp_pks db ps) := by
  rw [gti_rows1, List.filter_comm, links_of]
  exact map_pk_filter_mem _ _

/-- The per-instance rows of the exact-match subquery are all of the
instance's join rows, for instances retained by the first subquery. -/
theorem sq2_links (db : DB) (ps : List (String × PValue)) (t : Nat)
    (ht : t ∈ gti_sq1 db ps) :
    ((gti_rows2 db ps).filter fun l => decide (l.ti_pk = t)) =
      db.ti_parameters.filter fun l => decide (l.ti_pk = t) := by
  rw [gti_rows2]
  exact filter_tipk_restrict _ _ _ ht

theorem gti_qp_pks_nodup (db : DB) (ps : List (String × PValue))
    (hP : param_pk_nodup db) : (gti_qp_pks db ps).Nodup :=
  List.Nodup.sublist
    (List.Sublist.map _ (List.filter_sublist db.parameters)) hP

theorem required_pks_card (db : DB) (ps : List (String × PValue))
    (hP : param_pk_nodup db) :
    (required_pks db ps).card = (gti_qp db ps).length := by
  rw [required_pks, List.toFinset_card_of_nodup (gti_qp_pks_nodup db ps hP),
    gti_qp_pks, List.length_map]

/-- Soundness of the exact-match subquery: a retained instance's joined
parameter-pk set equals the resolved required set. -/
theorem mem_sq2_links_eq (db : DB) (ps : List (String × PValue))
    (hU : param_content_nodup db) (hP : param_pk_nodup db)
    (hlen : (gti_qp db ps).length = ps.length)
    (t : Nat) (ht : t ∈ gti_sq2 db ps) :
    (links_of db t).toFinset = required_pks db ps := by
  classical
  obtain ⟨htmem, htcard⟩ := List.mem_filter.mp ht
  -- the instance was retained by the first subquery
  have ht1 : t ∈ gti_sq1 db ps := by
    rcases List.mem_map.mp (List.mem_dedup.mp htmem) with ⟨l, hl, hlt⟩
    have := List.of_mem_filter hl
    rw [← hlt]
    exact of_decide_eq_true this
  have hS : (links_of db t).toFinset.card = ps.length := by
    have h := of_decide_eq_true htcard
    rw [sq2_links db ps t ht1] at h
    exact h
  obtain ⟨ht1mem, ht1card⟩ := List.mem_filter.mp ht1
  have hT : ((links_of db t).filter fun a =>
      decide (a ∈ gti_qp_pks db ps)).toFinset.card = (gti_qp db ps).length := by
    have h := of_decide_eq_true ht1card
    rw [sq1_links db ps t] at h
    exact h
  have hTS : ((links_of db t).filter fun a =>
      decide (a ∈ gti_qp_pks db ps)).toFinset ⊆ (links_of db t).toFinset := by
    intro a ha
    rw [List.mem_toFinset] at ha ⊢
    exact List.mem_of_mem_filter ha
  have hTQ : ((links_of db t).filter fun a =>
      decide (a ∈ gti_qp_pks db ps)).toFinset ⊆ required_pks db ps := by
    intro a ha
    rw [List.mem_toFinset] at ha
    obtain ⟨_, hpa⟩ := List.mem_filter.mp ha
    exact List.mem_toFinset.mpr (of_decide_eq_true hpa)
  have hTeqQ : ((links_of db t).filter fun a =>
      decide (a ∈ gti_qp_pks db ps)).toFinset = required_pks db ps := by
    apply Finset.eq_of_subset_of_card_le hTQ
    rw [required_pks_card db ps hP, hT]
  have hTeqS : ((links_of db t).filter fun a =>
      decide (a ∈ gti_qp_pks db ps)).toFinset = (links_of db t).toFinset := by
    apply Finset.eq_of_subset_of_card_le hTS
    rw [hS, hT, hlen]
  rw [← hTeqS, hTeqQ]

/-- Completeness of the exact-match subquery: an instance whose joined
parameter-pk set equals the nonempty required set is retained. -/
theorem links_eq_mem_sq2 (db : DB) (ps : List (String × PValue))
    (hP : param_pk_nodup db)
    (hlen : (gti_qp db ps).length = ps.length)
    (hQne : gti_qp_pks db ps ≠ [])
    (t : Nat) (hlinks : (links_of db t).toFinset = required_pks db ps) :
    t ∈ gti_sq2 db ps := by
  classical
  obtain ⟨a, ha⟩ := List.exists_mem_of_ne_nil _ hQne
  have haS : a ∈ links_of db t := by
    have h : a ∈ required_pks db ps := List.mem_toFinset.mpr ha
    rw [← hlinks] at h
    exact List.mem_toFinset.mp h
  obtain ⟨l, hl, hla⟩ := List.mem_map.mp haS
  obtain ⟨hldb, hlt⟩ := List.mem_filter.mp hl
  have hlt' : l.ti_pk = t := of_decide_eq_true hlt
  have hallQ : ∀ b ∈ links_of db t, b ∈ gti_qp_pks db ps := by
    intro b hb
    have h : b ∈ required_pks db ps := by
      rw [← hlinks]; exact List.mem_toFinset.mpr hb
    exact List.mem_toFinset.mp h
  have hfilter_self : (links_of db t).filter
      (fun b => decide (b ∈ gti_qp_pks db ps)) = links_of db t :=
    List.filter_eq_self.mpr (fun b hb => decide_eq_true (hallQ b hb))
  have hcardS : (links_of db t).toFinset.card = (gti_qp db ps).length := by
    rw [hlinks, required_pks_card db ps hP]
  have hl1 : l ∈ gti_rows1 db ps := by
    apply List.mem_filter.mpr
    refine ⟨hldb, decide_eq_true ?_⟩
    rw [hla]; exact ha
  have ht1 : t ∈ gti_sq1 db ps := by
    apply List.mem_filter.mpr
    constructor
    · exact List.mem_dedup.mpr (List.mem_map.mpr ⟨l, hl1, hlt'⟩)
    · apply decide_eq_true
      rw [sq1_links db ps t, hfilter_self, hcardS]
  have hl2 : l ∈ gti_rows2 db ps := by
    apply List.mem_filter.mpr
    refine ⟨hldb, decide_eq_true ?_⟩
    rw [hlt']; exact ht1
  apply List.mem_filter.mpr
  constructor
  · exact List.mem_dedup.mpr (List.mem_map.mpr ⟨l, hl2, hlt'⟩)
  · apply decide_eq_true
    rw [sq2_links db ps t ht1]
    show (links_of db t).toFinset.card = ps.length
    rw [hcardS, hlen]

theorem oneOrNone_ok_some {α : Type} {l : List α} {x : α}
    (h : oneOrNone l = .ok (some x)) : x ∈ l := by
  cases l with
  | nil => simp [oneOrNone] at h
  | cons a t =>
    cases t with
    | nil =>
      simp [oneOrNone] at h
      rw [← h]
      exact List.mem_cons_self a []
    | cons b t2 => simp [oneOrNone] at h

theorem two_mem_le_length {α : Type} [DecidableEq α] {l : List α} {a b : α}
    (ha : a ∈ l) (hb : b ∈ l) (hne : a ≠ b) : 2 ≤ l.length := by
  classical
  have hsub : ({a, b} : Finset α) ⊆ l.toFinset := by
    intro x hx
    rcases Finset.mem_insert.mp hx with rfl | hx2
    · exact List.mem_toFinset.mpr ha
    · rw [Finset.mem_singleton.mp hx2]
      exact List.mem_toFinset.mpr hb
  calc 2 = ({a, b} : Finset α).card := (Finset.card_pair hne).symm
    _ ≤ l.toFinset.card := Finset.card_le_card hsub
    _ ≤ l.length := List.toFinset_card_le _

theorem oneOrNone_error_of_two {α : Type} (l : List α) (h : 2 ≤ l.length) :
    ∃ e, oneOrNone l = .error e := by
  cases l with
  | nil => simp at h
  | cons a t =>
    cases t with
    | nil => simp at h
    | cons b t2 => exact ⟨.multipleResultsFound, rfl⟩

/-- Claim C3: under the pk and content-address invariants of the parameter
table and distinct requested keys, the registry lookup (a) returns an
instance only when that instance's joined parameter-pk set equals the
resolved required set exactly and every requested pair resolves (so neither
strict subsets nor strict supersets match), (b) short-circuits to not-found
when any requested pair has no Parameter row, and (c) raises an error
instead of silently picking one instance when two distinct exact matches
exist. -/
theorem c3_exact_match_lookup (db : DB) (dag_id task_id : String)
    (run_id : Option String) (ps : List (String × PValue))
    (hU : param_content_nodup db) (hP : param_pk_nodup db)
    (hK : (ps.map Prod.fst).Nodup) :
    (∀ ti, get_task_instance db dag_id task_id run_id ps = .ok (some ti) →
      (links_of db ti.pk).toFinset = required_pks db ps ∧
      ∀ kv ∈ ps, resolves_pair db kv = true) ∧
    ((∃ kv ∈ ps, resolves_pair db kv = false) →
      get_task_instance db dag_id task_id run_id ps = .ok none) ∧
    (∀ ti1 ti2, ti1 ∈ db.task_instances → ti2 ∈ db.task_instances →
      ti1.pk ≠ ti2.pk →
      (links_of db ti1.pk).toFinset = required_pks db ps →
      (links_of db ti2.pk).toFinset = required_pks db ps →
      ti1.dag_id = dag_id → ti1.task_id = task_id →
      run_id_matches run_id ti1 = true →
      ti2.dag_id = dag_id → ti2.task_id = task_id →
      run_id_matches run_id ti2 = true →
      ps ≠ [] → (∀ kv ∈ ps, resolves_pair db kv = true) →
      ∃ e, get_task_instance db dag_id task_id run_id ps = .error e) := by
  refine ⟨?_, ?_, ?_⟩
  · intro ti hres
    by_cases hlt : (gti_qp db ps).length < ps.length
    · rw [get_task_instance, if_pos hlt] at hres
      simp at hres
    · rw [get_task_instance, if_neg hlt] at hres
      have hlen : (gti_qp db ps).length = ps.length :=
        le_antisymm (gti_qp_length_le db ps hU) (not_lt.mp hlt)
      have hmem := oneOrNone_ok_some hres
      obtain ⟨_, hcond⟩ := List.mem_filter.mp hmem
      have hsq2 : ti.pk ∈ gti_sq2 db ps := by
        simp only [Bool.and_eq_true, decide_eq_true_eq] at hcond
        exact hcond.1.1.1
      exact ⟨mem_sq2_links_eq db ps hU hP hlen ti.pk hsq2,
        resolves_of_length_eq db ps hU hK hlen⟩
  · rintro ⟨kv, hkv, hmiss⟩
    have hlt := gti_qp_length_lt_of_missing db ps hU hK kv hkv hmiss
    rw [get_task_instance, if_pos hlt]
  · intro ti1 ti2 h1 h2 hne hl1 hl2 hd1 ht1 hr1 hd2 ht2 hr2 hps hall
    have hge := length_le_gti_qp db ps hK hall
    have hle := gti_qp_length_le db ps hU
    have hlen : (gti_qp db ps).length = ps.length := le_antisymm hle hge
    have hQne : gti_qp_pks db ps ≠ [] := by
      obtain ⟨kv, hkv⟩ := List.exists_mem_of_ne_nil ps hps
      rcases List.any_eq_true.mp (hall kv hkv) with ⟨p, hp, hm⟩
      have hpq : p ∈ gti_qp db ps :=
        List.mem_filter.mpr
          ⟨hp, decide_eq_true ⟨kv, hkv, of_decide_eq_true hm⟩⟩
      intro hcon
      have hpk : p.pk ∈ gti_qp_pks db ps := List.mem_map.mpr ⟨p, hpq, rfl⟩
      rw [hcon] at hpk
      exact absurd hpk (List.not_mem_nil _)
    have hm1 : ti1.pk ∈ gti_sq2 db ps :=
      links_eq_mem_sq2 db ps hP hlen hQne ti1.pk hl1
    have hm2 : ti2.pk ∈ gti_sq2 db ps :=
      links_eq_mem_sq2 db ps hP hlen hQne ti2.pk hl2
    have hq1 : ti1 ∈ db.task_instances.filter fun ti =>
        decide (ti.pk ∈ gti_sq2 db ps) && decide (ti.dag_id = dag_id) &&
        decide (ti.task_id = task_id) && run_id_matches run_id ti :=
      List.mem_filter.mpr ⟨h1, by simp [hm1, hd1, ht1, hr1]⟩
    have hq2 : ti2 ∈ db.task_instances.filter fun ti =>
        decide (ti.pk ∈ gti_sq2 db ps) && decide (ti.dag_id = dag_id) &&
        decide (ti.task_id = task_id) && run_id_matches run_id ti :=
      List.mem_filter.mpr ⟨h2, by simp [hm2, hd2, ht2, hr2]⟩
    have hne2 : ti1 ≠ ti2 := fun hcon => hne (congrArg TaskInstanceRow.pk hcon)
    have h2len := two_mem_le_length hq1 hq2 hne2
    rw [get_task_instance, if_neg (not_lt.mpr (le_of_eq hlen.symm))]
    exact oneOrNone_error_of_two _ h2len

/-- Witness for C3 on a store holding one parameter row (k, v) and one task
instance linked to it. -/
theorem c3_exact_match_lookup_witness :
    (∀ ti, get_task_instance
        ⟨[⟨0, "k", "v"⟩], [⟨10, "d", "t", "r", none⟩], [⟨10, 0⟩], [], [], 1, 11, 0⟩
        "d" "t" (some "r") [("k", .s "v")] = .ok (some ti) →
      (links_of ⟨[⟨0, "k", "v"⟩], [⟨10, "d", "t", "r", none⟩], [⟨10, 0⟩],
          [], [], 1, 11, 0⟩ ti.pk).toFinset =
        required_pks ⟨[⟨0, "k", "v"⟩], [⟨10, "d", "t", "r", none⟩], [⟨10, 0⟩],
          [], [], 1, 11, 0⟩ [("k", .s "v")] ∧
      ∀ kv ∈ [(("k" : String), PValue.s "v")],
        resolves_pair ⟨[⟨0, "k", "v"⟩], [⟨10, "d", "t", "r", none⟩], [⟨10, 0⟩],
          [], [], 1, 11, 0⟩ kv = true) ∧
    ((∃ kv ∈ [(("k" : String), PValue.s "v")],
        resolves_pair ⟨[⟨0, "k", "v"⟩], [⟨10, "d", "t", "r", none⟩], [⟨10, 0⟩],
          [], [], 1, 11, 0⟩ kv = false) →
      get_task_instance
        ⟨[⟨0, "k", "v"⟩], [⟨10, "d", "t", "r", none⟩], [⟨10, 0⟩], [], [], 1, 11, 0⟩
        "d" "t" (some "r") [("k", .s "v")] = .ok none) ∧
    (∀ ti1 ti2,
      ti1 ∈ (⟨[⟨0, "k", "v"⟩], [⟨10, "d", "t", "r", none⟩], [⟨10, 0⟩],
        [], [], 1, 11, 0⟩ : DB).task_instances →
      ti2 ∈ (⟨[⟨0, "k", "v"⟩], [⟨10, "d", "t", "r", none⟩], [⟨10, 0⟩],
        [], [], 1, 11, 0⟩ : DB).task_instances →
      ti1.pk ≠ ti2.pk →
      (links_of ⟨[⟨0, "k", "v"⟩], [⟨10, "d", "t", "r", none⟩], [⟨10, 0⟩],
          [], [], 1, 11, 0⟩ ti1.pk).toFinset =
        required_pks ⟨[⟨0, "k", "v"⟩], [⟨10, "d", "t", "r", none⟩], [⟨10, 0⟩],
          [], [], 1, 11, 0⟩ [("k", .s "v")] →
      (links_of ⟨[⟨0, "k", "v"⟩], [⟨10, "d", "t", "r", none⟩], [⟨10, 0⟩],
          [], [], 1, 11, 0⟩ ti2.pk).toFinset =
        required_pks ⟨[⟨0, "k", "v"⟩], [⟨10, "d", "t", "r", none⟩], [⟨10, 0⟩],
          [], [], 1, 11, 0⟩ [("k", .s "v")] →
      ti1.dag_id = "d" → ti1.task_id = "t" →
      run_id_matches (some "r") ti1 = true →
      ti2.dag_id = "d" → ti2.task_id = "t" →
      run_id_matches (some "r") ti2 = true →
      [(("k" : String), PValue.s "v")] ≠ [] →
      (∀ kv ∈ [(("k" : String), PValue.s "v")],
        resolves_pair ⟨[⟨0, "k", "v"⟩], [⟨10, "d", "t", "r", none⟩], [⟨10, 0⟩],
          [], [], 1, 11, 0⟩ kv = true) →
      ∃ e, get_task_instance
        ⟨[⟨0, "k", "v"⟩], [⟨10, "d", "t", "r", none⟩], [⟨10, 0⟩], [], [], 1, 11, 0⟩
        "d" "t" (some "r") [("k", .s "v")] = .error e) :=
  c3_exact_match_lookup
    ⟨[⟨0, "k", "v"⟩], [⟨10, "d", "t", "r", none⟩], [⟨10, 0⟩], [], [], 1, 11, 0⟩
    "d" "t" (some "r") [("k", .s "v")]
    (by unfold param_content_nodup; decide)
    (by unfold param_pk_nodup; decide)
    (by decide)
